import Mathlib

/-!
Verification development for the Dhaka Dispatch background worker
(`src/index.ts`, `src/types.ts`).

The worker's pure logic is shallowly embedded below.  JavaScript strings are
modelled by Lean `String`, JS `null`/`undefined` string values by
`Option String` (with JS truthiness made explicit), JS `NaN` results of
`parseInt` by `none : Option Int`, rejected promises / thrown exceptions by
`Except String`, and the external collaborators (NewsData.io, Gemini,
Cloudinary, the webhook, font / image fetches, satori / resvg rendering)
by explicit outcome fields of a `CategoryEnv` record, exactly at the
boundary where `src/index.ts` calls them.
-/

set_option autoImplicit false

/-! ## JavaScript string primitives used by `src/index.ts` -/

/-- Whitespace recognised by `String.prototype.trim` (ASCII subset; the
Unicode space characters JS also trims do not occur in the modelled data). -/
def isJsSpace (c : Char) : Bool :=
  c = ' ' || c = '\t' || c = '\n' || c = '\r' || c = '\x0b' || c = '\x0c'

/-- JS `s.trim()`. -/
def jsTrim (s : String) : String :=
  String.mk (((s.data.dropWhile isJsSpace).reverse.dropWhile isJsSpace).reverse)

/-- JS `s.split(sep)` for a single-character separator, on `List Char`:
`"".split(x) = [""]`, separators at the ends produce empty pieces. -/
def jsSplitChar (sep : Char) : List Char → List (List Char)
  | [] => [[]]
  | c :: rest =>
    if c = sep then [] :: jsSplitChar sep rest
    else
      match jsSplitChar sep rest with
      | [] => [[c]]
      | p :: ps => (c :: p) :: ps

/-- JS `s.split(sep)` for a single-character separator. -/
def jsSplit (sep : Char) (s : String) : List String :=
  (jsSplitChar sep s.data).map String.mk

/-- JS `parts.join(sep)`. -/
def jsJoin (sep : String) : List String → String
  | [] => ""
  | [s] => s
  | s :: rest => s ++ sep ++ jsJoin sep rest

/-- JS truthiness of a nullable string: `null`/`undefined` and `""` are falsy. -/
def jsTruthy : Option String → Bool
  | none => false
  | some s => s ≠ ""

/-- JS `a || b` on nullable strings. -/
def jsOr (a b : Option String) : Option String :=
  if jsTruthy a then a else b

/-- JS template-literal stringification of a nullable string
(`null`/`undefined` interpolate as `"null"`; both are modelled by `none`). -/
def jsToString : Option String → String
  | some s => s
  | none => "null"

/-- Longest decimal-digit prefix, as a number; `none` when there is no digit
(the `NaN` case of `parseInt`). -/
def parseDigits (cs : List Char) : Option Nat :=
  let ds := cs.takeWhile (fun c => c.isDigit)
  if ds.isEmpty then none
  else some (ds.foldl (fun n c => n * 10 + (c.toNat - 48)) 0)

/-- JS `parseInt(s, 10)`: skip leading whitespace, optional sign, then the
longest digit prefix; `none` models `NaN`. -/
def jsParseIntStr (s : String) : Option Int :=
  match s.data.dropWhile isJsSpace with
  | '-' :: rest => (parseDigits rest).map (fun n => -(n : Int))
  | '+' :: rest => (parseDigits rest).map (fun n => (n : Int))
  | cs => (parseDigits cs).map (fun n => (n : Int))

/-- JS `parseInt(v, 10)` where `v` may be `undefined`
(`parseInt(undefined, 10)` stringifies the argument and yields `NaN`). -/
def jsParseInt : Option String → Option Int
  | none => jsParseIntStr "undefined"
  | some s => jsParseIntStr s

/-- ASCII lower-casing, JS `s.toLowerCase()` on the modelled data. -/
def lowerStr (s : String) : String :=
  String.mk (s.data.map Char.toLower)

/-! ## Data model (`src/types.ts`) -/

/-- `NewsArticle` of `src/types.ts`.  Nullable fields are `Option`;
`pubDate` is modelled by the epoch value `new Date(pubDate).getTime()`
that the code sorts by. -/
structure NewsArticle where
  article_id : String
  title : String
  link : String
  description : Option String
  content : Option String
  pubDate : Nat
  image_url : Option String
  source_id : String
deriving Repr, DecidableEq

/-- `NewsDataResponse` of `src/types.ts`; `results` is `none` when the JSON
body lacks the field (the code guards with `r.results || []`). -/
structure NewsDataResponse where
  status : String
  results : Option (List NewsArticle)
deriving Repr, DecidableEq

/-- An HTTP response as observed by the worker: status flag, status text and
the JSON body (`none` when `res.json()` would reject). -/
structure HttpResponse where
  ok : Bool
  statusText : String
  json : Option NewsDataResponse
deriving Repr, DecidableEq

/-- `NewsCategory` of `src/types.ts`. -/
structure NewsCategory where
  name : String
  apiValue : String
deriving Repr, DecidableEq

/-- `GeminiAnalysisResult` of `src/types.ts`, with the JS value space the
parser can actually produce: `chosenId = none` models `NaN`, a `none` string
field models `undefined` (key absent from the reply). -/
structure GeminiAnalysisResult where
  chosenId : Option Int
  headline : Option String
  highlightWords : List String
  imagePrompt : Option String
  caption : Option String
  sourceName : Option String
deriving Repr, DecidableEq

/-- `HeadlinePart` of `src/types.ts`. -/
structure HeadlinePart where
  text : String
  highlighted : Bool
deriving Repr, DecidableEq

/-- Response of fetching an article's `image_url`: status flag and code, the
`Content-Type` header (`none` = header absent) and the body bytes. -/
structure ImageFetchResp where
  ok : Bool
  status : Nat
  contentType : Option String
  bytes : List Nat
deriving Repr, DecidableEq

/-- Payload posted by `sendToWebhook`. -/
structure WebhookPayload where
  headline : Option String
  imageUrl : String
  summary : Option String
  newsLink : String
  status : String
deriving Repr, DecidableEq

/-- The `NEWS_CATEGORIES` constant of `src/index.ts`. -/
def NEWS_CATEGORIES : List NewsCategory :=
  [⟨"Trending", "top"⟩, ⟨"Politics", "politics"⟩, ⟨"Crime", "crime"⟩,
   ⟨"Entertainment", "entertainment"⟩, ⟨"Business/Corporate", "business"⟩]

/-! ## Dynamic font sizing (`getDynamicFontSize`, `src/index.ts:313-320`) -/

/-- `getDynamicFontSize` of `src/index.ts`. -/
def getDynamicFontSize (headline : String) : Nat :=
  let length := headline.length
  if length ≤ 50 then 72
  else if length ≤ 80 then 64
  else if length ≤ 120 then 56
  else if length ≤ 160 then 48
  else 40

/-- Claim C7: dynamic font sizing is a pure step function of headline length
with exactly the five values 72, 64, 56, 48, 40 at the breakpoints 50, 80,
120, 160, and the chosen size is non-increasing in the headline length. -/
theorem getDynamicFontSize_step_monotone : ∀ h1 h2 : String,
    (h1.length ≤ 50 → getDynamicFontSize h1 = 72)
    ∧ (50 < h1.length → h1.length ≤ 80 → getDynamicFontSize h1 = 64)
    ∧ (80 < h1.length → h1.length ≤ 120 → getDynamicFontSize h1 = 56)
    ∧ (120 < h1.length → h1.length ≤ 160 → getDynamicFontSize h1 = 48)
    ∧ (160 < h1.length → getDynamicFontSize h1 = 40)
    ∧ (h1.length ≤ h2.length → getDynamicFontSize h2 ≤ getDynamicFontSize h1) := by
  intro h1 h2
  unfold getDynamicFontSize
  dsimp only
  refine ⟨?_, ?_, ?_, ?_, ?_, ?_⟩ <;> intros <;> split_ifs <;> omega

/-- Witness for C7: the five sizes at lengths 10, 60, 100, 140, 200
(strings of `a`s), and non-increase from length 50 to length 51. -/
theorem getDynamicFontSize_step_monotone_witness :
    getDynamicFontSize (String.mk (List.replicate 10 'a')) = 72
    ∧ getDynamicFontSize (String.mk (List.replicate 60 'a')) = 64
    ∧ getDynamicFontSize (String.mk (List.replicate 100 'a')) = 56
    ∧ getDynamicFontSize (String.mk (List.replicate 140 'a')) = 48
    ∧ getDynamicFontSize (String.mk (List.replicate 200 'a')) = 40
    ∧ getDynamicFontSize (String.mk (List.replicate 51 'a'))
        ≤ getDynamicFontSize (String.mk (List.replicate 50 'a')) := by
  refine ⟨?_, ?_, ?_, ?_, ?_, ?_⟩
  · exact (getDynamicFontSize_step_monotone (String.mk (List.replicate 10 'a'))
      (String.mk (List.replicate 10 'a'))).1 (by decide)
  · exact (getDynamicFontSize_step_monotone (String.mk (List.replicate 60 'a'))
      (String.mk (List.replicate 60 'a'))).2.1 (by decide) (by decide)
  · exact (getDynamicFontSize_step_monotone (String.mk (List.replicate 100 'a'))
      (String.mk (List.replicate 100 'a'))).2.2.1 (by decide) (by decide)
  · exact (getDynamicFontSize_step_monotone (String.mk (List.replicate 140 'a'))
      (String.mk (List.replicate 140 'a'))).2.2.2.1 (by decide) (by decide)
  · exact (getDynamicFontSize_step_monotone (String.mk (List.replicate 200 'a'))
      (String.mk (List.replicate 200 'a'))).2.2.2.2.1 (by decide)
  · exact (getDynamicFontSize_step_monotone (String.mk (List.replicate 50 'a'))
      (String.mk (List.replicate 51 'a'))).2.2.2.2.2 (by decide)

/-! ## Selection Protocol: response parsing
(`analyzeArticlesWithGemini`, `src/index.ts:213-247`) -/

/-- The line-folding step of the parser: for each (already trimmed) line,
`const [key, ...valueParts] = line.split(':')`; the pair is recorded only when
`key` is truthy and at least one colon was found; the value is
`valueParts.join(':').trim()`.  Later assignments to the same key overwrite
earlier ones, which the association list together with `lookupData` models. -/
def buildData (lines : List String) : List (String × String) :=
  lines.foldl
    (fun data line =>
      match jsSplit ':' line with
      | [] => data
      | [_] => data
      | key :: valueParts =>
        if key = "" then data
        else data ++ [(jsTrim key, jsTrim (jsJoin ":" valueParts))])
    []

/-- JS object property lookup on the recorded pairs (last write wins);
`none` models `undefined`. -/
def lookupData (data : List (String × String)) (k : String) : Option String :=
  ((data.filter (fun kv => kv.1 = k)).getLast?).map (fun kv => kv.2)

/-- `text.split('\n').map(line => line.trim())`. -/
def replyLines (text : String) : List String :=
  (jsSplit '\n' text).map jsTrim

/-- The key/value record the parser builds from the (trimmed) reply text. -/
def replyData (text : String) : List (String × String) :=
  buildData (replyLines text)

/-- `data['HIGHLIGHT_WORDS'].split(',').map(w => w.trim())`. -/
def parseHighlightValue (v : String) : List String :=
  (jsSplit ',' v).map jsTrim

/-- The parsing part of `analyzeArticlesWithGemini` applied to the model's
reply text: trim, sentinel check, then field extraction.  In the source the
only expression inside the `try` block that can throw is
`data['HIGHLIGHT_WORDS'].split(',')` when the key is absent (`undefined`);
`parseInt` on a missing or malformed `CHOSEN_ID` yields `NaN` (modelled
`none`) and plain lookups of missing keys yield `undefined` (modelled
`none`) without throwing, so the `catch` — the parse error — fires exactly
when `HIGHLIGHT_WORDS` is absent. -/
def parseGeminiReply (raw : String) : Except String (Option GeminiAnalysisResult) :=
  let text := jsTrim raw
  if text = "IRRELEVANT" then Except.ok none
  else
    let data := replyData text
    match lookupData data "HIGHLIGHT_WORDS" with
    | none => Except.error ("Failed to parse Gemini response: " ++ text)
    | some hw =>
      Except.ok (some
        ⟨jsParseInt (lookupData data "CHOSEN_ID"),
         lookupData data "HEADLINE",
         parseHighlightValue hw,
         lookupData data "IMAGE_PROMPT",
         lookupData data "CAPTION",
         lookupData data "SOURCE_NAME"⟩)

/-! ## Article Aggregator (`fetchNewsForCategory`, `src/index.ts:140-171`) -/

/-- One `Map.set` step of `new Map(allArticles.map(a => [a.link, a]))`:
if the link is already a key, the stored article is REPLACED in place
(the key keeps its original position); otherwise the entry is appended.
The accumulator always has pairwise-distinct links, so replacing the first
occurrence is exactly the JS `Map` update. -/
def insertByLink : List NewsArticle → NewsArticle → List NewsArticle
  | [], a => [a]
  | b :: rest, a =>
    if b.link = a.link then a :: rest else b :: insertByLink rest a

/-- `Array.from(new Map(allArticles.map(a => [a.link, a])).values())`:
for each distinct link in order of first occurrence, the LAST article
carrying that link. -/
def dedupByLink (l : List NewsArticle) : List NewsArticle :=
  l.foldl insertByLink []

/-- One step of a stable sort by `pubDate` descending: walk past strictly
newer articles, stop at the first article not newer (ties keep the earlier
element first, as the stable JS `Array.prototype.sort` does with the
comparator `(a, b) => getTime(b) - getTime(a)`). -/
def insertDesc (a : NewsArticle) : List NewsArticle → List NewsArticle
  | [] => [a]
  | b :: rest =>
    if a.pubDate < b.pubDate then b :: insertDesc a rest else a :: b :: rest

/-- `uniqueArticles.sort((a, b) => getTime(b) - getTime(a))`: stable sort by
`pubDate` descending, modelled by stable insertion sort (any stable sort
under this total comparator produces the same list). -/
def sortByPubDateDesc (l : List NewsArticle) : List NewsArticle :=
  l.foldr insertDesc []

/-- The upstream categories fanned out to by the `"top"` branch:
`NEWS_CATEGORIES.filter(c => c.apiValue !== "top").map(c => c.apiValue)`. -/
def otherCategoryKeys : List String :=
  (NEWS_CATEGORIES.filter (fun c => c.apiValue ≠ "top")).map (fun c => c.apiValue)

/-- One sub-fetch of the `"top"` branch: `fetch(url).then(res => res.json())`.
A network error rejects, `res.json()` rejects when the body is not JSON;
the HTTP status is NOT inspected on this path. -/
def subFetchJson (fetches : String → Except String HttpResponse) (cat : String) :
    Except String NewsDataResponse :=
  match fetches cat with
  | Except.error e => Except.error e
  | Except.ok resp =>
    match resp.json with
    | none => Except.error "res.json() rejected: body is not JSON"
    | some d => Except.ok d

/-- `Promise.all` over the sub-fetches: the whole step rejects as soon as any
element rejects, and resolves to the list of results when all resolve. -/
def promiseAll (f : String → Except String NewsDataResponse) :
    List String → Except String (List NewsDataResponse)
  | [] => Except.ok []
  | c :: rest =>
    match f c with
    | Except.error e => Except.error e
    | Except.ok d =>
      match promiseAll f rest with
      | Except.error e => Except.error e
      | Except.ok ds => Except.ok (d :: ds)

/-- `fetchNewsForCategory` of `src/index.ts`, with the network modelled by
`fetches : category key → outcome`.  The `"top"` branch fans out, merges
(`flatMap` over `r.results || []`), dedups by link, sorts by `pubDate`
descending and truncates to 10; the single-category branch checks
`response.ok` and throws on a non-success status.  Both branches then drop
articles without a truthy `image_url` or without a truthy `content` or
`description`, and drop articles whose link is already used. -/
def fetchNewsForCategory (category : NewsCategory) (usedUrls : List String)
    (fetches : String → Except String HttpResponse) :
    Except String (List NewsArticle) :=
  let finish : List NewsArticle → Except String (List NewsArticle) := fun rawArticles =>
    let validArticles := rawArticles.filter
      (fun a => jsTruthy a.image_url && (jsTruthy a.content || jsTruthy a.description))
    let unusedArticles := validArticles.filter (fun a => !usedUrls.contains a.link)
    Except.ok unusedArticles
  if category.apiValue = "top" then
    match promiseAll (subFetchJson fetches) otherCategoryKeys with
    | Except.error e => Except.error e
    | Except.ok responses =>
      let allArticles := responses.flatMap (fun r => r.results.getD [])
      let uniqueArticles := dedupByLink allArticles
      let sorted := sortByPubDateDesc uniqueArticles
      finish (sorted.take 10)
  else
    match fetches category.apiValue with
    | Except.error e => Except.error e
    | Except.ok response =>
      if !response.ok then
        Except.error ("NewsData API request failed: " ++ response.statusText)
      else
        match response.json with
        | none => Except.error "response.json() rejected: body is not JSON"
        | some data => finish (data.results.getD [])

/-! ## Headline segmentation
(`splitHeadlineForHighlighting`, `src/index.ts:301-311`)

The source builds its splitter as
`new RegExp('(' + highlightWords.join('|') + ')', 'gi')` from UNESCAPED
phrases (the spec flags this in its design notes), so each phrase is a regex
fragment, not literal text.  The model below covers the fragment of
ECMAScript regexes such phrases can form from literal characters and
BALANCED CAPTURING GROUPS: parentheses are transparent for matching but
each contributes a captured substring, and `String.prototype.split` splices
every capture group of the separator into its output.  A phrase using any
other metacharacter (quantifier, class, escape, alternation bar, anchor) or
unbalanced parentheses is outside the modelled fragment: compilation fails
and `splitHeadlineForHighlighting` reports an error — for unbalanced groups
the real `new RegExp` throws a `SyntaxError`; for the other metacharacters
the real regex has semantics this embedding does not cover, and no theorem
below speaks about those phrases. -/

/-- ECMAScript pattern metacharacters other than the parentheses (which the
model supports as capturing groups).  A phrase containing one of these is
outside the modelled regex fragment. -/
def isRegexMeta (c : Char) : Bool :=
  c = '*' || c = '+' || c = '?' || c = '.' || c = '[' || c = ']' ||
  c = '\x7b' || c = '\x7d' || c = '\\' || c = '|' || c = '^' || c = '$'

/-- A character the regex engine treats as matching itself. -/
def isLiteralChar (c : Char) : Bool :=
  !(c = '(' || c = ')' || isRegexMeta c)

/-- One compiled alternative of the separator regex: the literal characters
the phrase matches (its parentheses removed) and the spans of its capturing
groups over those literal positions, in group-opening order.  Within this
fragment parentheses never change what is matched, only what is captured. -/
structure CompiledPhrase where
  lits : List Char
  spans : List (Nat × Nat)
deriving Repr, DecidableEq

/-- Walk a phrase, collecting literal characters and capture-group spans:
`pos` counts literals consumed, `spans` holds one slot per `(` seen (filled
at its `)`), `stack` holds the open groups (slot index, start position).
`none` on a metacharacter or an unmatched `)`; an unmatched `(` is detected
at the end of the phrase. -/
def compileAux : List Char → Nat → List (Option (Nat × Nat)) →
    List (Nat × Nat) → Option (List Char × List (Option (Nat × Nat)))
  | [], _, spans, stack =>
    match stack with
    | [] => some ([], spans)
    | _ :: _ => none
  | c :: rest, pos, spans, stack =>
    if c = '(' then
      compileAux rest pos (spans ++ [none]) ((spans.length, pos) :: stack)
    else if c = ')' then
      match stack with
      | [] => none
      | (slot, start) :: stack1 =>
        compileAux rest pos (spans.set slot (some (start, pos))) stack1
    else if isRegexMeta c then none
    else
      (compileAux rest (pos + 1) spans stack).map
        (fun r => (c :: r.1, r.2))

/-- All capture slots, which compilation has filled. -/
def fillSpans : List (Option (Nat × Nat)) → Option (List (Nat × Nat))
  | [] => some []
  | none :: _ => none
  | some se :: rest => (fillSpans rest).map (fun tail => se :: tail)

/-- Compile one phrase of the alternation; `none` when the phrase is outside
the modelled regex fragment (or would make `new RegExp` throw). -/
def compilePhrase (p : List Char) : Option CompiledPhrase :=
  match compileAux p 0 [] [] with
  | none => none
  | some (lits, spans) =>
    match fillSpans spans with
    | none => none
    | some sp => some ⟨lits, sp⟩

/-- Compile the whole separator `(w1|w2|...)`: every phrase must compile. -/
def compileHighlightRegex : List (List Char) → Option (List CompiledPhrase)
  | [] => some []
  | p :: ps =>
    match compilePhrase p with
    | none => none
    | some cp =>
      match compileHighlightRegex ps with
      | none => none
      | some cps => some (cp :: cps)

/-- Case-insensitive literal prefix test (the `i` flag, ASCII model); a
pattern longer than the remaining input never matches. -/
def ciLitPrefix (lits rest : List Char) : Bool :=
  lits.map Char.toLower = (rest.take lits.length).map Char.toLower

/-- The input substring a capture span grabbed. -/
def sliceSpan (m : List Char) (se : Nat × Nat) : List Char :=
  (m.drop se.1).take (se.2 - se.1)

/-- The capture slots of a list of not-tried alternatives: all `undefined`. -/
def undefinedCaps (ps : List CompiledPhrase) : List (Option (List Char)) :=
  ps.flatMap (fun p => List.replicate p.spans.length none)

/-- The alternation at one anchor position: alternatives are tried in the
order the phrases were supplied and the first whose literals match wins;
the result is the matched input text and the capture list of ALL the
alternation's groups in source order — the matched alternative's groups
hold their captured substrings, every other alternative's groups are
`undefined`. -/
def matchAlternation : List CompiledPhrase → List Char →
    Option (List Char × List (Option (List Char)))
  | [], _ => none
  | p :: ps, rest =>
    if ciLitPrefix p.lits rest then
      let m := rest.take p.lits.length
      some (m, p.spans.map (fun se => some (sliceSpan m se)) ++ undefinedCaps ps)
    else
      (matchAlternation ps rest).map
        (fun r => (r.1, List.replicate p.spans.length none ++ r.2))

/-- `headline.split(regex)` for the compiled separator, following the
ECMAScript `String.prototype.split` algorithm: scan left to right; at each
position try the alternation; a non-empty match flushes the pending piece
and splices the whole match (the outer group) followed by every inner
capture — `undefined` (`none`) for the groups of non-matched alternatives;
an empty match at the start of the pending piece is skipped, elsewhere it
flushes the piece and splices its (empty) captures; the final pending piece
is emitted at the end.  `buf` is the pending piece, reversed.  `fuel` only
bounds the recursion; every step consumes at least one input character, so
`input length + 1` is always enough (supplied at the call site). -/
def regexScan (pats : List CompiledPhrase) : Nat → List Char → List Char →
    List (Option (List Char))
  | 0, buf, _ => [some buf.reverse]
  | _ + 1, buf, [] => [some buf.reverse]
  | fuel + 1, buf, c :: rest =>
    match matchAlternation pats (c :: rest) with
    | none => regexScan pats fuel (c :: buf) rest
    | some ([], caps) =>
      if buf.isEmpty then regexScan pats fuel [c] rest
      else some buf.reverse :: some [] :: (caps ++ regexScan pats fuel [c] rest)
    | some (m1 :: mrest, caps) =>
      some buf.reverse :: some (m1 :: mrest)
        :: (caps ++ regexScan pats fuel [] (rest.drop mrest.length))

/-- `parts.filter(part => part)`: `undefined` parts (unmatched groups) and
empty strings are falsy and dropped. -/
def keepTruthyParts (parts : List (Option (List Char))) : List (List Char) :=
  parts.filterMap (fun p =>
    match p with
    | none => none
    | some q => if q.isEmpty then none else some q)

/-- `splitHeadlineForHighlighting` of `src/index.ts`: if the highlight list
is empty or its first entry is the empty string, the whole headline is one
non-highlighted segment (this guard precedes the `new RegExp` call in the
source).  Otherwise compile `(w1|w2|...)` from the unescaped phrases — an
error when a phrase falls outside the modelled regex fragment — split the
headline on it (keeping matches and spliced captures), drop falsy parts,
and mark a part highlighted when it case-insensitively equals one of the
phrases. -/
def splitHeadlineForHighlighting (headline : String) (highlightWords : List String) :
    Except String (List HeadlinePart) :=
  if highlightWords = [] ∨ highlightWords.head? = some "" then
    Except.ok [⟨headline, false⟩]
  else
    match compileHighlightRegex (highlightWords.map String.data) with
    | none =>
      Except.error "new RegExp on the joined phrases: outside the modelled regex fragment"
    | some pats =>
      let parts := regexScan pats (headline.data.length + 1) [] headline.data
      Except.ok ((keepTruthyParts parts).map
        (fun p => ⟨String.mk p, highlightWords.any (fun h => lowerStr h = lowerStr (String.mk p))⟩))

/-! ## Selection Protocol: prompt construction
(`buildGeminiPrompt`, `src/index.ts:173-211`) -/

/-- One serialized entry of the candidate list:
``ARTICLE ${index+1}:\nID: ${index+1}\nTitle: ...\nContent: ...\nSource: ...\n---``. -/
def articleEntry (idNum : Nat) (article : NewsArticle) : String :=
  "ARTICLE " ++ toString idNum ++ ":\nID: " ++ toString idNum
    ++ "\nTitle: " ++ article.title
    ++ "\nContent: " ++ jsToString (jsOr article.content article.description)
    ++ "\nSource: " ++ article.source_id ++ "\n---"

/-- `articles.map((article, index) => ...)` with the running index:
`articleEntries i l` serializes `l` starting at 0-based position `i`,
giving each article the 1-based ID `position + 1`. -/
def articleEntries : Nat → List NewsArticle → List String
  | _, [] => []
  | i, a :: rest => articleEntry (i + 1) a :: articleEntries (i + 1) rest

/-- The fixed editorial instructions preceding the serialized candidate
list in `buildGeminiPrompt` (template text up to `${articlesString}`). -/
def promptIntro : String :=
  "\nYou are an expert news editor for a Bangladeshi social media channel. Your goal is to find the single most important, impactful, and relevant story for your audience from a list of recent articles.\n\n**Your First Task: Select the Best Article**\n- You will be given a list of news articles.\n- Review all articles and select the ONE that is most newsworthy and DIRECTLY about Bangladesh.\n- **CRITICAL RULE:** The article's main subject MUST be Bangladesh. News about other countries (e.g., India) is NOT relevant unless Bangladesh or a Bangladeshi entity is a primary subject of the article (e.g., a bilateral agreement). An article about Indian politics is irrelevant. Be extremely strict.\n- If NONE of the articles meet this strict criteria, you MUST respond with ONLY the single word: IRRELEVANT.\n\n**If you find a suitable article, proceed to Your Second Task:**\n- Identify the article you chose by its ID.\n- Perform a full analysis on ONLY that chosen article.\n\n**Analysis Steps:**\n**1. Headline Generation (IMPACT Principle):** Informative, Main Point, Prompting Curiosity, Active Voice, Concise, Targeted.\n**2. Highlight Phrase Identification:** Identify key phrases from your new headline that capture critical information (entities, key terms, numbers). List these exact phrases, separated by commas.\n**3. Image Prompt Generation (SCAT Principle & Safety):** Generate a concise, descriptive prompt for an AI image generator. The prompt MUST be safe for work and MUST NOT contain depictions of specific people (especially political figures), violence, conflict, or other sensitive topics. Instead, focus on symbolic, abstract, or neutral representations of the news. For example, for a political story, prompt \"Gavel on a table with a Bangladeshi flag in the background\" instead of showing politicians. The prompt should follow the SCAT principle (Subject, Context, Atmosphere, Type).\n**4. Caption & Source:** Create a social media caption (~50 words) with 3-5 relevant hashtags.\n\n**List of Articles to Analyze:**\n"

/-- The fixed output-format instructions following the serialized candidate
list (template text after `${articlesString}`). -/
def promptOutro : String :=
  "\n\n**Output Format (Strict):**\n- If no article is relevant, respond ONLY with: IRRELEVANT\n- If you find a relevant article, respond ONLY with the following format. Do not add any other text or formatting. Each field must be on a new line.\n\nCHOSEN_ID: [The ID number of the article you selected]\nHEADLINE: [Your generated headline for the chosen article]\nHIGHLIGHT_WORDS: [phrase 1, phrase 2]\nIMAGE_PROMPT: [Your generated image prompt]\nCAPTION: [Your generated caption. Crucially, DO NOT include the source name in the caption.]\nSOURCE_NAME: [The source name (e.g., 'thedailystar') from the chosen article. This is a mandatory and separate field.]\n    "

/-- `buildGeminiPrompt` of `src/index.ts`: the instruction text around the
serialized, 1-indexed candidate list (entries joined with newlines). -/
def buildGeminiPrompt (articles : List NewsArticle) : String :=
  promptIntro ++ jsJoin "\n" (articleEntries 0 articles) ++ promptOutro

/-! ## Image Resolver (`prepareMainImage`, `src/index.ts:249-291`) -/

/-- The base64 alphabet. -/
def base64Alphabet : List Char :=
  "ABCDEFGHIJKLMNOPQRSTUVWXYZabcdefghijklmnopqrstuvwxyz0123456789+/".data

/-- One base64 digit. -/
def b64c (n : Nat) : Char :=
  base64Alphabet.getD n 'A'

/-- JS `btoa` applied to the byte string built with `String.fromCharCode`
over a `Uint8Array` (all values < 256): standard base64 with padding. -/
def btoa : List Nat → String
  | [] => ""
  | [a] => String.mk [b64c (a / 4), b64c (a % 4 * 16), '=', '=']
  | [a, b] => String.mk [b64c (a / 4), b64c (a % 4 * 16 + b / 16), b64c (b % 16 * 4), '=']
  | a :: b :: c :: rest =>
    String.mk [b64c (a / 4), b64c (a % 4 * 16 + b / 16), b64c (b % 16 * 4 + c / 64), b64c (c % 64)]
      ++ btoa rest

/-- `response.headers.get("Content-Type") || "image/png"`. -/
def responseMime (resp : ImageFetchResp) : String :=
  jsToString (jsOr resp.contentType (some "image/png"))

/-- The external outcomes one category's processing can observe, at the exact
boundaries where `src/index.ts` awaits a collaborator:
`fetches` is the NewsData request per category key, `modelReply` the Gemini
text call on the built prompt, `imageFetch` the article-image fetch,
`generated` the Imagen call on the given prompt (the list of
`generatedImages[i].image.imageBytes`), `fonts` the three font fetches of
`composeFinalImage`, `render` the satori+resvg rasterization (png bytes),
`upload` the Cloudinary call (secure url), `webhook` the Make.com call. -/
structure CategoryEnv where
  fetches : String → Except String HttpResponse
  modelReply : String → Except String String
  imageFetch : Except String ImageFetchResp
  generated : Option String → Except String (List String)
  fonts : Except String Unit
  render : List HeadlinePart → Nat → String → Except String (List Nat)
  upload : String → Except String String
  webhook : WebhookPayload → Except String Unit

/-- `prepareMainImage` of `src/index.ts`: if the article has a truthy
`image_url`, try to fetch it; on a success status return the fetched bytes
as an inline `data:` payload (fetched content type, `image/png` when the
header is missing).  On a network error or non-success status fall through
to `generateImages` with the Gemini image prompt; a rejected generation call
propagates as an error, a generation returning at least one image yields
that image as an inline png payload, and a generation returning zero images
yields `none` (the "unavailable" outcome), not an error. -/
def prepareMainImage (article : NewsArticle) (geminiPrompt : Option String)
    (env : CategoryEnv) : Except String (Option String) :=
  let generateFallback : Except String (Option String) :=
    match env.generated geminiPrompt with
    | Except.error e => Except.error e
    | Except.ok [] => Except.ok none
    | Except.ok (imageBytes :: _) =>
      Except.ok (some ("data:image/png;base64," ++ imageBytes))
  if jsTruthy article.image_url then
    match env.imageFetch with
    | Except.error _ => generateFallback
    | Except.ok response =>
      if response.ok then
        Except.ok (some
          ("data:" ++ responseMime response ++ ";base64," ++ btoa response.bytes))
      else generateFallback
  else generateFallback

/-! ## Composition, upload, webhook
(`composeFinalImage`, `uploadToCloudinary`, `sendToWebhook`) -/

/-- `composeFinalImage` of `src/index.ts` at its collaborator boundary:
fetch the three fonts (any failure throws), segment the headline — a
`SyntaxError` thrown by `new RegExp`, or a phrase outside the modelled regex
fragment, propagates — compute the font size, render (satori + resvg, any
library failure throws), and wrap the png bytes as a base64 `data:` payload.
A missing (`undefined`) headline throws inside the layout computation. -/
def composeFinalImage (analysis : GeminiAnalysisResult) (mainImageSrc : String)
    (env : CategoryEnv) : Except String String :=
  match env.fonts with
  | Except.error e => Except.error e
  | Except.ok _ =>
    match analysis.headline with
    | none => Except.error "TypeError: headline is undefined"
    | some headline =>
      match splitHeadlineForHighlighting headline analysis.highlightWords with
      | Except.error e => Except.error e
      | Except.ok headlineParts =>
        let fontSize := getDynamicFontSize headline
        match env.render headlineParts fontSize mainImageSrc with
        | Except.error e => Except.error e
        | Except.ok pngBuffer => Except.ok ("data:image/png;base64," ++ btoa pngBuffer)

/-- `uploadToCloudinary` at its collaborator boundary. -/
def uploadToCloudinary (imageBase64 : String) (env : CategoryEnv) : Except String String :=
  env.upload imageBase64

/-- `sendToWebhook` of `src/index.ts`: posts the payload
`{headline, imageUrl, summary := caption, newsLink := article.link, status := "Queue"}`. -/
def sendToWebhook (analysis : GeminiAnalysisResult) (imageUrl : String)
    (article : NewsArticle) (env : CategoryEnv) : Except String Unit :=
  env.webhook ⟨analysis.headline, imageUrl, analysis.caption, article.link, "Queue"⟩

/-! ## Batch Orchestrator (`processNewsBatch`, `src/index.ts:85-138`) -/

/-- `analyzeArticlesWithGemini` of `src/index.ts`: build the prompt, call the
model (a rejected call propagates), then parse the reply text. -/
def analyzeArticlesWithGemini (articles : List NewsArticle) (env : CategoryEnv) :
    Except String (Option GeminiAnalysisResult) :=
  match env.modelReply (buildGeminiPrompt articles) with
  | Except.error e => Except.error e
  | Except.ok raw => parseGeminiReply raw

/-- JS `articles[chosenId - 1]`: `undefined` (here `none`) for a `NaN`,
non-positive or out-of-range index. -/
def jsIndex (articles : List NewsArticle) (chosenId : Option Int) : Option NewsArticle :=
  match chosenId with
  | none => none
  | some k => if 1 ≤ k then articles[(k - 1).toNat]? else none

/-- JS `Set.prototype.add` on the used-URL set (modelled as a duplicate-free
insertion-ordered list). -/
def jsSetAdd (used : List String) (l : String) : List String :=
  if used.contains l then used else used ++ [l]

/-- How one category's run ends. -/
inductive CatOutcome where
  | failed
  | noArticles
  | irrelevant
  | noImage
  | success
deriving Repr, DecidableEq

/-- The orchestrator state after one category: the used-URL set, the link
added by this category's successful selection (if the run got that far), and
how the category ended. -/
structure CatStep where
  used : List String
  chosen : Option String
  outcome : CatOutcome
deriving Repr, DecidableEq

/-- The publication stages of one category AFTER the chosen link has been
added to the used set (steps 5-8 of `processNewsBatch`); none of them can
touch the used-URL set. -/
def publishStages (analysisResult : GeminiAnalysisResult) (chosenArticle : NewsArticle)
    (env : CategoryEnv) : CatOutcome :=
  match prepareMainImage chosenArticle analysisResult.imagePrompt env with
  | Except.error _ => CatOutcome.failed
  | Except.ok none => CatOutcome.noImage
  | Except.ok (some mainImageSrc) =>
    match composeFinalImage analysisResult mainImageSrc env with
    | Except.error _ => CatOutcome.failed
    | Except.ok finalImageBase64 =>
      match uploadToCloudinary finalImageBase64 env with
      | Except.error _ => CatOutcome.failed
      | Except.ok cloudinaryUrl =>
        match sendToWebhook analysisResult cloudinaryUrl chosenArticle env with
        | Except.error _ => CatOutcome.failed
        | Except.ok _ => CatOutcome.success

/-- The body of the per-category loop of `processNewsBatch`, including its
`try`/`catch`: any thrown error is caught and the loop moves on (the used
set keeps whatever was added before the throw).  A selection that reaches
`usedArticleUrls.add(chosenArticle.link)` records the chosen link; a `NaN`
or out-of-range `chosenId` makes `chosenArticle.link` throw a `TypeError`
before the add, so nothing is recorded. -/
def processCategory (category : NewsCategory) (env : CategoryEnv) (used : List String) :
    CatStep :=
  match fetchNewsForCategory category used env.fetches with
  | Except.error _ => ⟨used, none, CatOutcome.failed⟩
  | Except.ok articles =>
    if articles.isEmpty then ⟨used, none, CatOutcome.noArticles⟩
    else
      match analyzeArticlesWithGemini articles env with
      | Except.error _ => ⟨used, none, CatOutcome.failed⟩
      | Except.ok none => ⟨used, none, CatOutcome.irrelevant⟩
      | Except.ok (some analysisResult) =>
        match jsIndex articles analysisResult.chosenId with
        | none => ⟨used, none, CatOutcome.failed⟩
        | some chosenArticle =>
          ⟨jsSetAdd used chosenArticle.link, some chosenArticle.link,
           publishStages analysisResult chosenArticle env⟩

/-- The category loop: thread the used set through the categories in order,
collecting each category's recorded chosen link. -/
def runCategories (envs : NewsCategory → CategoryEnv) :
    List NewsCategory → List String → List String × List (Option String)
  | [], used => (used, [])
  | cat :: rest, used =>
    let step := processCategory cat (envs cat) used
    let next := runCategories envs rest step.used
    (next.1, step.chosen :: next.2)

/-- `processNewsBatch` of `src/index.ts`: the used-URL set starts empty and
the five categories are processed sequentially; the result is the final used
set and the per-category chosen links. -/
def processNewsBatch (envs : NewsCategory → CategoryEnv) :
    List String × List (Option String) :=
  runCategories envs NEWS_CATEGORIES []

/-! ## Concrete inputs shared by the claim witnesses -/

/-- A well-formed sample article (truthy `image_url` and `content`). -/
def sampleArticle : NewsArticle :=
  ⟨"a1", "Sample Title", "https://example.com/a1", some "desc", some "body", 100,
   some "https://example.com/a1.jpg", "thedailystar"⟩

/-- A collaborator environment whose unneeded boundaries all reject. -/
def baseEnv : CategoryEnv :=
  ⟨fun _ => Except.error "unused",
   fun _ => Except.error "unused",
   Except.error "unused",
   fun _ => Except.error "unused",
   Except.ok (),
   fun _ _ _ => Except.error "unused",
   fun _ => Except.error "unused",
   fun _ => Except.error "unused"⟩

/-- A successful single-category NewsData response holding `sampleArticle`. -/
def sampleFetches : String → Except String HttpResponse :=
  fun _ => Except.ok ⟨true, "OK", some ⟨"success", some [sampleArticle]⟩⟩

/-! ## Claim C1 (corrected): parse errors and partial results -/

/-- A structured reply with five of the six keys — `SOURCE_NAME` is absent. -/
def replyMissingSource : String :=
  "CHOSEN_ID: 2\nHEADLINE: H\nHIGHLIGHT_WORDS: a, b\nIMAGE_PROMPT: p\nCAPTION: c"

/-- Claim C1 counterexample: a non-sentinel reply missing the required
`SOURCE_NAME` key does NOT fail with a parse error — the parser returns a
partially-populated result whose `sourceName` is `undefined` (`none`).  The
claim states any absent required key yields a parse error and a partial
result is never returned. -/
theorem parseGeminiReply_partial_result :
    parseGeminiReply replyMissingSource
      = Except.ok (some ⟨some 2, some "H", ["a", "b"], some "p", some "c", none⟩) := by
  rfl

/-- Claim C1 (amended): the parser fails with a parse error exactly when the
reply is not the sentinel and the `HIGHLIGHT_WORDS` key is absent.  A
missing `CHOSEN_ID`, `HEADLINE`, `IMAGE_PROMPT`, `CAPTION` or `SOURCE_NAME`,
or a non-integer `CHOSEN_ID`, yields a partially-populated result
(`NaN`/`undefined` fields) instead; a `NaN` or out-of-range chosen index is
only caught downstream, when the orchestrator's `articles[chosenId - 1]`
dereference throws: the category then fails without recording a selection
and with the used set unchanged. -/
theorem parseGeminiReply_error_iff : ∀ raw : String,
    ((∃ e, parseGeminiReply raw = Except.error e) ↔
      (jsTrim raw ≠ "IRRELEVANT"
        ∧ lookupData (replyData (jsTrim raw)) "HIGHLIGHT_WORDS" = none))
    ∧ (∀ (cat : NewsCategory) (env : CategoryEnv) (used : List String)
        (articles : List NewsArticle) (analysisResult : GeminiAnalysisResult),
        fetchNewsForCategory cat used env.fetches = Except.ok articles →
        articles.isEmpty = false →
        analyzeArticlesWithGemini articles env = Except.ok (some analysisResult) →
        jsIndex articles analysisResult.chosenId = none →
        processCategory cat env used = ⟨used, none, CatOutcome.failed⟩) := by
  intro raw
  constructor
  · by_cases h : jsTrim raw = "IRRELEVANT"
    · simp [parseGeminiReply, h]
    · cases hl : lookupData (replyData (jsTrim raw)) "HIGHLIGHT_WORDS" with
      | none => simp [parseGeminiReply, h, hl]
      | some hw => simp [parseGeminiReply, h, hl]
  · intro cat env used articles analysisResult hfetch hempty hana hidx
    unfold processCategory
    rw [hfetch]
    simp only [hempty, Bool.false_eq_true, if_false, hana, hidx]

/-- A structured reply whose `CHOSEN_ID` (99) is out of range for a
one-article candidate set. -/
def replyOutOfRange : String :=
  "CHOSEN_ID: 99\nHEADLINE: H\nHIGHLIGHT_WORDS: a\nIMAGE_PROMPT: p\nCAPTION: c\nSOURCE_NAME: s"

/-- Environment for the C1 witness: the fetch yields one article and the
model replies with the out-of-range `CHOSEN_ID: 99`. -/
def outOfRangeEnv : CategoryEnv :=
  ⟨sampleFetches,
   fun _ => Except.ok replyOutOfRange,
   Except.error "unused",
   fun _ => Except.error "unused",
   Except.ok (),
   fun _ _ _ => Except.error "unused",
   fun _ => Except.error "unused",
   fun _ => Except.error "unused"⟩

/-- Witness for the amended C1: a reply parsing to `CHOSEN_ID = 99` against
a one-article candidate set makes the category fail with no recorded
selection and the used set unchanged. -/
theorem parseGeminiReply_error_iff_witness :
    processCategory ⟨"Politics", "politics"⟩ outOfRangeEnv []
      = ⟨[], none, CatOutcome.failed⟩ :=
  (parseGeminiReply_error_iff "").2 ⟨"Politics", "politics"⟩ outOfRangeEnv []
    [sampleArticle] ⟨some 99, some "H", ["a"], some "p", some "c", some "s"⟩
    (by rfl) (by rfl) (by rfl) (by rfl)

/-! ## Claim C6: sentinel precedence -/

/-- Claim C6: a model reply whose trimmed text is exactly `IRRELEVANT`
always yields the "no relevant article" outcome (`Except.ok none`) — the
key-based parsing branch, which alone can build a `GeminiAnalysisResult` or
a parse error, is never reached — and the category leaves the used-URL set
unchanged and records no chosen link. -/
theorem sentinel_precedence : ∀ (raw : String) (cat : NewsCategory)
    (env : CategoryEnv) (used : List String),
    jsTrim raw = "IRRELEVANT" →
    parseGeminiReply raw = Except.ok none
    ∧ ((∀ p, env.modelReply p = Except.ok raw) →
        (processCategory cat env used).used = used
        ∧ (processCategory cat env used).chosen = none) := by
  intro raw cat env used hraw
  have hparse : parseGeminiReply raw = Except.ok none := by
    simp [parseGeminiReply, hraw]
  refine ⟨hparse, ?_⟩
  intro hreply
  unfold processCategory
  cases hf : fetchNewsForCategory cat used env.fetches with
  | error e => exact ⟨rfl, rfl⟩
  | ok articles =>
    by_cases he : articles.isEmpty
    · simp [he]
    · have hana : analyzeArticlesWithGemini articles env = Except.ok none := by
        unfold analyzeArticlesWithGemini
        rw [hreply (buildGeminiPrompt articles)]
        exact hparse
      simp [he, hana]

/-- Witness for C6: the literal reply `"  IRRELEVANT\n"` (sentinel with
surrounding whitespace) parses to the none outcome, and a category whose
model reply is that text leaves the used set unchanged. -/
theorem sentinel_precedence_witness :
    parseGeminiReply "  IRRELEVANT\n" = Except.ok none
    ∧ (processCategory ⟨"Politics", "politics"⟩
        ⟨sampleFetches, fun _ => Except.ok "  IRRELEVANT\n", Except.error "unused",
         fun _ => Except.error "unused", Except.ok (), fun _ _ _ => Except.error "unused",
         fun _ => Except.error "unused", fun _ => Except.error "unused"⟩ []).used = []
    ∧ (processCategory ⟨"Politics", "politics"⟩
        ⟨sampleFetches, fun _ => Except.ok "  IRRELEVANT\n", Except.error "unused",
         fun _ => Except.error "unused", Except.ok (), fun _ _ _ => Except.error "unused",
         fun _ => Except.error "unused", fun _ => Except.error "unused"⟩ []).chosen = none := by
  have h := sentinel_precedence "  IRRELEVANT\n" ⟨"Politics", "politics"⟩
    ⟨sampleFetches, fun _ => Except.ok "  IRRELEVANT\n", Except.error "unused",
     fun _ => Except.error "unused", Except.ok (), fun _ _ _ => Except.error "unused",
     fun _ => Except.error "unused", fun _ => Except.error "unused"⟩ [] (by rfl)
  exact ⟨h.1, (h.2 (fun p => rfl)).1, (h.2 (fun p => rfl)).2⟩

/-! ## Claim C10: empty `HIGHLIGHT_WORDS` value -/

/-- A structured reply whose `HIGHLIGHT_WORDS` value is the empty string. -/
def replyEmptyHighlights : String :=
  "CHOSEN_ID: 1\nHEADLINE: H\nHIGHLIGHT_WORDS:\nIMAGE_PROMPT: p\nCAPTION: c\nSOURCE_NAME: s"

/-- Claim C10: an empty `HIGHLIGHT_WORDS` value parses to the one-element
highlight list `[""]` (JS `"".split(',') = [""]`), and headline segmentation
on an empty list or any list whose first entry is the empty string returns
the whole headline as a single non-highlighted segment — empty highlight
fields silently disable highlighting instead of erroring. -/
theorem emptyHighlights_disable_highlighting :
    parseHighlightValue "" = [""]
    ∧ (∀ (headline : String) (ws : List String),
        ws = [] ∨ ws.head? = some "" →
        splitHeadlineForHighlighting headline ws = Except.ok [⟨headline, false⟩])
    ∧ parseGeminiReply replyEmptyHighlights
        = Except.ok (some ⟨some 1, some "H", [""], some "p", some "c", some "s"⟩) := by
  refine ⟨rfl, ?_, rfl⟩
  intro headline ws hws
  unfold splitHeadlineForHighlighting
  rw [if_pos hws]

/-- Witness for C10: segmentation with highlight list `[""]` (the parse of
an empty `HIGHLIGHT_WORDS` value) returns the whole headline as one
non-highlighted segment. -/
theorem emptyHighlights_disable_highlighting_witness :
    splitHeadlineForHighlighting "Dhaka Port Expansion Begins" [""]
      = Except.ok [⟨"Dhaka Port Expansion Begins", false⟩] :=
  emptyHighlights_disable_highlighting.2.1 "Dhaka Port Expansion Begins" [""]
    (Or.inr rfl)

/-! ## Claim C2 (corrected): deduplication keeps the LAST duplicate -/

/-- Links occurring in `insertByLink acc a`: the inserted link and the
accumulator's links. -/
theorem mem_map_link_insertByLink (acc : List NewsArticle) (a : NewsArticle) (k : String) :
    k ∈ (insertByLink acc a).map NewsArticle.link
      ↔ k = a.link ∨ k ∈ acc.map NewsArticle.link := by
  induction acc with
  | nil => simp [insertByLink]
  | cons b rest ih =>
    by_cases hb : b.link = a.link
    · simp only [insertByLink, if_pos hb, List.map_cons, List.mem_cons, ih]
      constructor
      · rintro (h | h)
        · exact Or.inl h
        · exact Or.inr (Or.inr h)
      · rintro (h | h | h)
        · exact Or.inl h
        · exact Or.inl (h.trans hb)
        · exact Or.inr h
    · simp only [insertByLink, if_neg hb, List.map_cons, List.mem_cons, ih]
      tauto

/-- `insertByLink` preserves distinctness of the stored links (the `Map`
invariant). -/
theorem nodup_map_link_insertByLink (acc : List NewsArticle) (a : NewsArticle)
    (h : (acc.map NewsArticle.link).Nodup) :
    ((insertByLink acc a).map NewsArticle.link).Nodup := by
  induction acc with
  | nil => simp [insertByLink]
  | cons b rest ih =>
    simp only [List.map_cons, List.nodup_cons] at h
    by_cases hb : b.link = a.link
    · simp only [insertByLink, if_pos hb, List.map_cons, List.nodup_cons]
      exact ⟨hb ▸ h.1, h.2⟩
    · simp only [insertByLink, if_neg hb, List.map_cons, List.nodup_cons]
      refine ⟨?_, ih h.2⟩
      rw [mem_map_link_insertByLink]
      rintro (hc | hc)
      · exact hb hc
      · exact h.1 hc


/-- Filtering `insertByLink acc a` for one link: the inserted article alone
for its own link, the untouched accumulator entries for any other link. -/
theorem insertByLink_filter (acc : List NewsArticle) (a : NewsArticle) (k : String)
    (h : (acc.map NewsArticle.link).Nodup) :
    (insertByLink acc a).filter (fun b => b.link == k)
      = if a.link = k then [a] else acc.filter (fun b => b.link == k) := by
  induction acc with
  | nil =>
    by_cases hk : a.link = k
    · simp [insertByLink, List.filter_cons, hk]
    · simp [insertByLink, List.filter_cons, hk]
  | cons b rest ih =>
    simp only [List.map_cons, List.nodup_cons] at h
    by_cases hb : b.link = a.link
    · rw [show insertByLink (b :: rest) a = a :: rest from by simp [insertByLink, hb]]
      by_cases hk : a.link = k
      · have hrest : rest.filter (fun b => b.link == k) = [] := by
          rw [List.filter_eq_nil_iff]
          intro x hx
          simp only [beq_iff_eq]
          intro hxk
          apply h.1
          rw [hb, hk, ← hxk]
          exact List.mem_map_of_mem _ hx
        simp [List.filter_cons, hk, hrest]
      · have hbk : ¬b.link = k := fun hc => hk (by rw [← hb]; exact hc)
        simp [List.filter_cons, hk, hbk]
    · rw [show insertByLink (b :: rest) a = b :: insertByLink rest a from by
        simp [insertByLink, hb]]
      rw [List.filter_cons, ih h.2]
      by_cases hbk : b.link = k
      · have hak : ¬a.link = k := fun hc => hb (by rw [hbk, hc])
        simp [List.filter_cons, hbk, hak]
      · simp [List.filter_cons, hbk]

/-- Taking the last of a cons, with a default for the empty case: the head
becomes the new default for the tail. -/
theorem getLast?_cons_match (x : NewsArticle) (xs d : List NewsArticle) :
    (match (x :: xs).getLast? with
     | some a => [a]
     | none => d)
      = match xs.getLast? with
        | some a => [a]
        | none => [x] := by
  cases xs with
  | nil => rfl
  | cons y ys =>
    rw [List.getLast?_cons_cons]
    cases h : (y :: ys).getLast? with
    | none =>
      exact absurd h (by simp)
    | some a => rfl

/-- The fold invariant behind `dedupByLink`: distinct links, and for every
link the kept entry is the LAST article with that link in the input (the
accumulator's entry when the input has none). -/
theorem dedupByLink_fold_invariant : ∀ (l acc : List NewsArticle),
    (acc.map NewsArticle.link).Nodup →
    ((l.foldl insertByLink acc).map NewsArticle.link).Nodup
    ∧ ∀ k : String,
        (l.foldl insertByLink acc).filter (fun b => b.link == k)
          = match (l.filter (fun b => b.link == k)).getLast? with
            | some a => [a]
            | none => acc.filter (fun b => b.link == k) := by
  intro l
  induction l with
  | nil =>
    intro acc h
    exact ⟨h, fun k => by simp⟩
  | cons x t ih =>
    intro acc h
    have hstep := ih (insertByLink acc x) (nodup_map_link_insertByLink acc x h)
    refine ⟨hstep.1, ?_⟩
    intro k
    rw [List.foldl_cons, hstep.2 k, insertByLink_filter acc x k h, List.filter_cons]
    by_cases hk : x.link = k
    · have hxk : (x.link == k) = true := by simp [hk]
      simp only [hxk, if_pos hk, if_true]
      exact (getLast?_cons_match x (t.filter (fun b => b.link == k))
        (acc.filter (fun b => b.link == k))).symm
    · have hxk : (x.link == k) = false := by simp [hk]
      simp only [hxk, if_neg hk, Bool.false_eq_true, if_false]

/-- Two distinct articles sharing one link. -/
def dupFirst : NewsArticle :=
  ⟨"a1", "first version", "https://example.com/dup", some "d", some "c", 100,
   some "https://example.com/i.jpg", "s1"⟩

/-- The later article with the same link as `dupFirst`. -/
def dupSecond : NewsArticle :=
  ⟨"a2", "second version", "https://example.com/dup", some "d", some "c", 90,
   some "https://example.com/i.jpg", "s2"⟩

/-- Claim C2 counterexample: merging two articles with the same link keeps
the SECOND (last-encountered) one, not the first as the claim states —
`new Map` overwrites the stored value on a repeated key. -/
theorem dedupByLink_keeps_second :
    dedupByLink [dupFirst, dupSecond] = [dupSecond]
    ∧ dedupByLink [dupFirst, dupSecond] ≠ [dupFirst] := by
  constructor
  · rfl
  · decide

/-- Claim C2 (amended): when merging the aggregate category's sub-fetch
results, exactly one article is kept per link (the kept links are
pairwise distinct), namely the LAST article with that link in the merged
sequence (at the position of the link's first occurrence); all other
duplicates are discarded. -/
theorem dedupByLink_one_per_link : ∀ (l : List NewsArticle) (k : String),
    ((dedupByLink l).map NewsArticle.link).Nodup
    ∧ (dedupByLink l).filter (fun b => b.link == k)
        = ((l.filter (fun b => b.link == k)).getLast?).toList := by
  intro l k
  have h := dedupByLink_fold_invariant l [] (by simp)
  refine ⟨h.1, ?_⟩
  rw [show dedupByLink l = l.foldl insertByLink [] from rfl, h.2 k]
  cases ht : (l.filter (fun b => b.link == k)).getLast? with
  | none => rfl
  | some a => rfl

/-! ## Claim C3 (corrected): headline segmentation round-trip -/

/-- Taking a prefix and dropping exactly what was taken restores the list
(also when the requested prefix exceeds the list). -/
theorem take_append_drop_length : ∀ (k : Nat) (l : List Char),
    l.take k ++ l.drop (l.take k).length = l := by
  intro k
  induction k with
  | zero => intro l; simp
  | succ k ih =>
    intro l
    cases l with
    | nil => rfl
    | cons c l1 =>
      simp only [List.take_succ_cons, List.length_cons, List.drop_succ_cons,
        List.cons_append, List.cons.injEq, true_and]
      exact ih l1

/-- Alternatives without capture groups contribute no `undefined` slots. -/
theorem undefinedCaps_nil : ∀ (ps : List CompiledPhrase),
    (∀ p ∈ ps, p.spans = []) → undefinedCaps ps = [] := by
  intro ps
  induction ps with
  | nil => intro _; rfl
  | cons p t ih =>
    intro h
    have hp : p.spans = [] := h p (List.mem_cons_self p t)
    have ht := ih (fun q hq => h q (List.mem_cons_of_mem p hq))
    simp only [undefinedCaps, List.flatMap_cons, hp, List.length_nil, List.replicate_zero,
      List.nil_append]
    exact ht

/-- When no alternative has a capture group, a match splices no captures. -/
theorem matchAlternation_caps_nil : ∀ (pats : List CompiledPhrase),
    (∀ p ∈ pats, p.spans = []) → ∀ (rest m : List Char) (caps : List (Option (List Char))),
    matchAlternation pats rest = some (m, caps) → caps = [] := by
  intro pats
  induction pats with
  | nil => intro _ rest m caps h; exact Option.noConfusion h
  | cons p ps ih =>
    intro hsp rest m caps h
    have hp0 : p.spans = [] := hsp p (List.mem_cons_self p ps)
    have hps : ∀ q ∈ ps, q.spans = [] := fun q hq => hsp q (List.mem_cons_of_mem p hq)
    unfold matchAlternation at h
    by_cases hp : ciLitPrefix p.lits rest
    · rw [if_pos hp] at h
      rw [hp0, undefinedCaps_nil ps hps] at h
      simp only [List.map_nil, List.nil_append, Option.some.injEq, Prod.mk.injEq] at h
      exact h.2.symm
    · rw [if_neg hp] at h
      obtain ⟨⟨m1, caps1⟩, hma, heq⟩ := Option.map_eq_some'.mp h
      simp only [Prod.mk.injEq] at heq
      rw [hp0] at heq
      simp only [List.length_nil, List.replicate_zero, List.nil_append] at heq
      rw [← heq.2]
      exact ih hps rest m1 caps1 hma

/-- A successful match always consumes a prefix of the input. -/
theorem matchAlternation_take : ∀ (pats : List CompiledPhrase) (rest m : List Char)
    (caps : List (Option (List Char))),
    matchAlternation pats rest = some (m, caps) → ∃ k, m = rest.take k := by
  intro pats
  induction pats with
  | nil => intro rest m caps h; exact Option.noConfusion h
  | cons p ps ih =>
    intro rest m caps h
    unfold matchAlternation at h
    by_cases hp : ciLitPrefix p.lits rest
    · rw [if_pos hp] at h
      simp only [Option.some.injEq, Prod.mk.injEq] at h
      exact ⟨p.lits.length, h.1.symm⟩
    · rw [if_neg hp] at h
      obtain ⟨⟨m1, caps1⟩, hma, heq⟩ := Option.map_eq_some'.mp h
      simp only [Prod.mk.injEq] at heq
      obtain ⟨k, hk⟩ := ih rest m1 caps1 hma
      exact ⟨k, heq.1 ▸ hk⟩

/-- `String.join` over a left fold, tracked on the character lists. -/
theorem foldl_append_mk (l : List String) (a : List Char) :
    l.foldl (fun r s => r ++ s) (String.mk a)
      = String.mk (a ++ (l.map String.data).flatten) := by
  induction l generalizing a with
  | nil => simp
  | cons s t ih =>
    simp only [List.foldl_cons, List.map_cons, List.flatten_cons]
    have h1 : String.mk a ++ s = String.mk (a ++ s.data) := rfl
    rw [h1, ih, List.append_assoc]

/-- Joining strings concatenates their character lists. -/
theorem join_eq_mk_flatten (l : List String) :
    String.join l = String.mk ((l.map String.data).flatten) := by
  have h : ("" : String) = String.mk [] := rfl
  unfold String.join
  rw [h, foldl_append_mk]
  simp

/-- Dropping the empty pieces does not change the concatenation. -/
theorem flatten_filter_nonempty (l : List (List Char)) :
    (l.filter (fun p => !p.isEmpty)).flatten = l.flatten := by
  induction l with
  | nil => rfl
  | cons p t ih =>
    by_cases hp : p.isEmpty
    · have hnil : p = [] := by simpa using hp
      simp [List.filter_cons, hp, hnil, ih]
    · simp [List.filter_cons, hp, ih]

/-- The falsy filter factors through dropping `undefined` parts and then
dropping empty pieces. -/
theorem keepTruthyParts_eq : ∀ (parts : List (Option (List Char))),
    keepTruthyParts parts = (parts.filterMap id).filter (fun p => !p.isEmpty) := by
  intro parts
  induction parts with
  | nil => rfl
  | cons pOpt t ih =>
    cases pOpt with
    | none =>
      rw [show keepTruthyParts (none :: t) = keepTruthyParts t from rfl,
        show List.filterMap id (none :: t) = List.filterMap id t from rfl]
      exact ih
    | some q =>
      have hred : (match some q with
          | none => none
          | some r => if r.isEmpty = true then none else some r)
          = (if q.isEmpty = true then none else some q) := rfl
      by_cases hq : q.isEmpty
      · have h1 : keepTruthyParts (some q :: t) = keepTruthyParts t := by
          unfold keepTruthyParts
          rw [List.filterMap_cons, hred, if_pos hq]
        have h2 : (List.filterMap id (some q :: t)).filter (fun p => !p.isEmpty)
            = (List.filterMap id t).filter (fun p => !p.isEmpty) := by
          rw [show List.filterMap id (some q :: t) = q :: List.filterMap id t from rfl,
            List.filter_cons]
          simp [hq]
        rw [h1, h2, ih]
      · have h1 : keepTruthyParts (some q :: t) = q :: keepTruthyParts t := by
          unfold keepTruthyParts
          rw [List.filterMap_cons, hred, if_neg hq]
        have h2 : (List.filterMap id (some q :: t)).filter (fun p => !p.isEmpty)
            = q :: (List.filterMap id t).filter (fun p => !p.isEmpty) := by
          rw [show List.filterMap id (some q :: t) = q :: List.filterMap id t from rfl,
            List.filter_cons]
          simp [hq]
        rw [h1, h2, ih]

/-- When no alternative has a capture group, the defined parts of one scan
concatenate to the pending piece followed by the remaining input: the split
never drops, adds or duplicates a character. -/
theorem regexScan_flatten (pats : List CompiledPhrase)
    (hnospans : ∀ p ∈ pats, p.spans = []) : ∀ (fuel : Nat) (rest buf : List Char),
    rest.length < fuel →
    ((regexScan pats fuel buf rest).filterMap id).flatten = buf.reverse ++ rest := by
  intro fuel
  induction fuel with
  | zero =>
    intro rest buf hlen
    exact absurd hlen (Nat.not_lt_zero _)
  | succ fuel ih =>
    intro rest buf hlen
    match rest with
    | [] => simp [regexScan]
    | c :: rest1 =>
      cases hm : matchAlternation pats (c :: rest1) with
      | none =>
        have heq : regexScan pats (fuel + 1) buf (c :: rest1)
            = regexScan pats fuel (c :: buf) rest1 := by
          rw [regexScan, hm]
        rw [heq, ih rest1 (c :: buf) (by simp only [List.length_cons] at hlen; omega)]
        simp
      | some mc =>
        obtain ⟨m, caps⟩ := mc
        have hcaps : caps = [] := matchAlternation_caps_nil pats hnospans (c :: rest1) m caps hm
        subst hcaps
        cases m with
        | nil =>
          have heq : regexScan pats (fuel + 1) buf (c :: rest1)
              = if buf.isEmpty then regexScan pats fuel [c] rest1
                else some buf.reverse :: some [] :: ([] ++ regexScan pats fuel [c] rest1) := by
            rw [regexScan, hm]
          rw [heq]
          by_cases hbuf : buf.isEmpty
          · rw [if_pos hbuf]
            have hb : buf = [] := by simpa using hbuf
            rw [ih rest1 [c] (by simp only [List.length_cons] at hlen; omega)]
            simp [hb]
          · rw [if_neg hbuf]
            rw [show (List.filterMap id (some buf.reverse :: some []
                :: ([] ++ regexScan pats fuel [c] rest1)))
              = buf.reverse :: [] :: List.filterMap id (regexScan pats fuel [c] rest1) from rfl]
            rw [List.flatten_cons, List.flatten_cons,
              ih rest1 [c] (by simp only [List.length_cons] at hlen; omega)]
            simp
        | cons m1 mrest =>
          have heq : regexScan pats (fuel + 1) buf (c :: rest1)
              = some buf.reverse :: some (m1 :: mrest)
                :: ([] ++ regexScan pats fuel [] (rest1.drop mrest.length)) := by
            rw [regexScan, hm]
          rw [heq]
          obtain ⟨k, hk⟩ := matchAlternation_take pats (c :: rest1) (m1 :: mrest) [] hm
          have hpre : (m1 :: mrest) ++ (c :: rest1).drop (m1 :: mrest).length = c :: rest1 := by
            rw [hk]
            exact take_append_drop_length k (c :: rest1)
          have hdrop : (c :: rest1).drop (m1 :: mrest).length = rest1.drop mrest.length := by
            simp [List.length_cons]
          rw [hdrop] at hpre
          have hlen1 : (rest1.drop mrest.length).length < fuel := by
            rw [List.length_drop]
            simp only [List.length_cons] at hlen
            omega
          rw [show (List.filterMap id (some buf.reverse :: some (m1 :: mrest)
              :: ([] ++ regexScan pats fuel [] (rest1.drop mrest.length))))
            = buf.reverse :: (m1 :: mrest)
              :: List.filterMap id (regexScan pats fuel [] (rest1.drop mrest.length)) from rfl]
          rw [List.flatten_cons, List.flatten_cons, ih (rest1.drop mrest.length) [] hlen1]
          simp only [List.reverse_nil, List.nil_append, List.append_assoc]
          rw [hpre]

/-- A phrase of purely literal characters compiles to itself: no groups. -/
theorem compileAux_literal : ∀ (p : List Char) (pos : Nat)
    (spans : List (Option (Nat × Nat))),
    (∀ c ∈ p, isLiteralChar c = true) →
    compileAux p pos spans [] = some (p, spans) := by
  intro p
  induction p with
  | nil => intro pos spans _; rfl
  | cons c rest ih =>
    intro pos spans hall
    have hc : isLiteralChar c = true := hall c (List.mem_cons_self c rest)
    have hcs : ¬c = '(' ∧ ¬c = ')' ∧ isRegexMeta c = false := by
      unfold isLiteralChar at hc
      simp only [Bool.not_eq_true', Bool.or_eq_false_iff, decide_eq_false_iff_not] at hc
      exact ⟨hc.1.1, hc.1.2, hc.2⟩
    unfold compileAux
    rw [if_neg hcs.1, if_neg hcs.2.1]
    simp only [hcs.2.2, Bool.false_eq_true, if_false]
    rw [ih (pos + 1) spans (fun d hd => hall d (List.mem_cons_of_mem c hd))]
    rfl

/-- A literal-only phrase compiles to its characters with no spans. -/
theorem compilePhrase_literal (p : List Char) (h : ∀ c ∈ p, isLiteralChar c = true) :
    compilePhrase p = some ⟨p, []⟩ := by
  unfold compilePhrase
  rw [compileAux_literal p 0 [] h]
  rfl

/-- A list of literal-only phrases compiles to literal alternatives. -/
theorem compileHighlightRegex_literal : ∀ (ws : List (List Char)),
    (∀ w ∈ ws, ∀ c ∈ w, isLiteralChar c = true) →
    compileHighlightRegex ws = some (ws.map (fun w => (⟨w, []⟩ : CompiledPhrase))) := by
  intro ws
  induction ws with
  | nil => intro _; rfl
  | cons w t ih =>
    intro hall
    unfold compileHighlightRegex
    rw [compilePhrase_literal w (hall w (List.mem_cons_self w t)),
      ih (fun v hv => hall v (List.mem_cons_of_mem w hv))]
    rfl

/-- Claim C3 counterexample: the source does not escape the highlight
phrases before joining them into the regex, so the phrase `"(VAT)"` becomes
a capturing group and `String.prototype.split` splices the captured `VAT`
into the output a second time: the segments concatenate to
`"Tax (VATVAT) Hike"`, not the original headline.  The claim asserts the
round-trip for every list of highlight phrases. -/
theorem splitHeadline_roundtrip_counterexample :
    splitHeadlineForHighlighting "Tax (VAT) Hike" ["(VAT)"]
      = Except.ok [⟨"Tax (", false⟩, ⟨"VAT", false⟩, ⟨"VAT", false⟩, ⟨") Hike", false⟩]
    ∧ String.join
        (([⟨"Tax (", false⟩, ⟨"VAT", false⟩, ⟨"VAT", false⟩, ⟨") Hike", false⟩]
          : List HeadlinePart).map HeadlinePart.text)
      = "Tax (VATVAT) Hike"
    ∧ ("Tax (VATVAT) Hike" : String) ≠ "Tax (VAT) Hike" := by
  refine ⟨rfl, rfl, ?_⟩
  decide

/-- Claim C3 (amended): for every headline and every list of highlight
phrases free of regex metacharacters (each phrase matches as literal text
and adds no capture group beyond the regex's outer one), segmentation
succeeds and concatenating the `text` fields of all produced segments, in
order, reproduces the original headline exactly.  For phrases with
metacharacters the reproduction can fail — parentheses add capture groups
that the split splices into the segment list (see the counterexample) — and
phrases outside the modelled regex fragment are not covered. -/
theorem splitHeadline_roundtrip_literal : ∀ (headline : String) (highlightWords : List String),
    (∀ w ∈ highlightWords, w.data.all isLiteralChar = true) →
    ∃ parts, splitHeadlineForHighlighting headline highlightWords = Except.ok parts
      ∧ String.join (parts.map HeadlinePart.text) = headline := by
  intro headline ws hlit
  unfold splitHeadlineForHighlighting
  split_ifs with hguard
  · exact ⟨[⟨headline, false⟩], rfl, rfl⟩
  · have hcomp : compileHighlightRegex (ws.map String.data)
        = some ((ws.map String.data).map (fun w => (⟨w, []⟩ : CompiledPhrase))) := by
      apply compileHighlightRegex_literal
      intro w hw c hc
      obtain ⟨s, hs, hws⟩ := List.mem_map.mp hw
      have hall := hlit s hs
      rw [← hws] at hc
      exact List.all_eq_true.mp hall c hc
    rw [hcomp]
    refine ⟨_, rfl, ?_⟩
    rw [List.map_map]
    have hcompose : (HeadlinePart.text ∘ fun p =>
        (⟨String.mk p, ws.any fun h => lowerStr h = lowerStr (String.mk p)⟩ : HeadlinePart))
        = fun p => String.mk p := rfl
    rw [hcompose, join_eq_mk_flatten, List.map_map]
    have hdata : (String.data ∘ fun p : List Char => String.mk p) = id := rfl
    rw [hdata, List.map_id, keepTruthyParts_eq, flatten_filter_nonempty]
    rw [regexScan_flatten ((ws.map String.data).map (fun w => (⟨w, []⟩ : CompiledPhrase)))
      (by
        intro p hp
        obtain ⟨w, hw, hwp⟩ := List.mem_map.mp hp
        rw [← hwp])
      (headline.data.length + 1) headline.data [] (Nat.lt_succ_self _)]
    rfl

/-- Witness for the amended C3: the spec example headline with the
metacharacter-free phrase `"Port Expansion"` splits successfully and its
segments concatenate back to the headline. -/
theorem splitHeadline_roundtrip_literal_witness :
    (∃ parts, splitHeadlineForHighlighting "Dhaka Port Expansion Begins" ["Port Expansion"]
      = Except.ok parts
      ∧ String.join (parts.map HeadlinePart.text) = "Dhaka Port Expansion Begins")
    ∧ splitHeadlineForHighlighting "Dhaka Port Expansion Begins" ["Port Expansion"]
      = Except.ok [⟨"Dhaka ", false⟩, ⟨"Port Expansion", true⟩, ⟨" Begins", false⟩] :=
  ⟨splitHeadline_roundtrip_literal "Dhaka Port Expansion Begins" ["Port Expansion"]
    (by decide), rfl⟩

/-! ## Claim C4 (corrected): aggregate fan-out failure modes -/

/-- `Promise.all` rejects when any element rejects. -/
theorem promiseAll_error_of_mem (f : String → Except String NewsDataResponse) :
    ∀ (cs : List String) (c : String), c ∈ cs → (∃ e, f c = Except.error e) →
    ∃ e, promiseAll f cs = Except.error e := by
  intro cs
  induction cs with
  | nil => intro c hc; exact absurd hc (List.not_mem_nil c)
  | cons d rest ih =>
    intro c hc ⟨e, he⟩
    cases hf : f d with
    | error e' => exact ⟨e', by simp [promiseAll, hf]⟩
    | ok v =>
      rcases List.mem_cons.mp hc with hcd | hcr
      · rw [hcd] at he
        rw [he] at hf
        exact absurd hf (by simp)
      · obtain ⟨e', he'⟩ := ih c hcr ⟨e, he⟩
        exact ⟨e', by simp [promiseAll, hf, he']⟩

/-- `Promise.all` resolves when every element resolves. -/
theorem promiseAll_ok_of_forall (f : String → Except String NewsDataResponse) :
    ∀ (cs : List String), (∀ c ∈ cs, ∃ d, f c = Except.ok d) →
    ∃ ds, promiseAll f cs = Except.ok ds := by
  intro cs
  induction cs with
  | nil => intro _; exact ⟨[], rfl⟩
  | cons d rest ih =>
    intro hall
    obtain ⟨v, hv⟩ := hall d (List.mem_cons_self d rest)
    obtain ⟨ds, hds⟩ := ih (fun c hc => hall c (List.mem_cons_of_mem d hc))
    exact ⟨v :: ds, by simp [promiseAll, hv, hds]⟩

/-- Fetch outcomes for the C4 counterexample: the `politics` sub-fetch
returns a non-success status whose JSON error body carries no results; the
other sub-fetches succeed with `sampleArticle`. -/
def mixedStatusFetches : String → Except String HttpResponse :=
  fun key =>
    if key = "politics" then Except.ok ⟨false, "Bad Gateway", some ⟨"error", none⟩⟩
    else Except.ok ⟨true, "OK", some ⟨"success", some [sampleArticle]⟩⟩

/-- Claim C4 counterexample: with the `politics` sub-fetch returning a
non-success HTTP status (JSON error body), the aggregate `"top"` fetch does
NOT fail — it succeeds with the other sub-fetches' articles, because the
aggregate path never checks `response.ok`.  The claim states any sub-fetch
failure, including a non-success status, fails the whole aggregate step. -/
theorem fetchNews_aggregate_ignores_status :
    fetchNewsForCategory ⟨"Trending", "top"⟩ [] mixedStatusFetches
      = Except.ok [sampleArticle] := by
  rfl

/-- Claim C4 (amended): for a single-category request a non-success status
raises a fatal error for that category.  For the aggregate category a
sub-fetch network error or unparseable body rejects the whole step (all
sub-fetches must resolve — `Promise.all`); but an upstream non-success
status whose body still parses as JSON does NOT fail the aggregate step:
that status is never inspected, the sub-fetch contributes whatever
`results` its body carries, and aggregation proceeds. -/
theorem fetchNews_failure_modes : ∀ (cat : NewsCategory) (used : List String)
    (fetches : String → Except String HttpResponse),
    (cat.apiValue ≠ "top" → ∀ resp, fetches cat.apiValue = Except.ok resp →
      resp.ok = false →
      fetchNewsForCategory cat used fetches
        = Except.error ("NewsData API request failed: " ++ resp.statusText))
    ∧ (cat.apiValue = "top" →
        (∃ c ∈ otherCategoryKeys, ∃ e, subFetchJson fetches c = Except.error e) →
        ∃ e, fetchNewsForCategory cat used fetches = Except.error e)
    ∧ (cat.apiValue = "top" →
        (∀ c ∈ otherCategoryKeys, ∃ d, subFetchJson fetches c = Except.ok d) →
        ∃ articles, fetchNewsForCategory cat used fetches = Except.ok articles) := by
  intro cat used fetches
  refine ⟨?_, ?_, ?_⟩
  · intro htop resp hresp hok
    unfold fetchNewsForCategory
    rw [if_neg htop, hresp]
    simp [hok]
  · intro htop ⟨c, hc, he⟩
    unfold fetchNewsForCategory
    rw [if_pos htop]
    obtain ⟨e, hall⟩ := promiseAll_error_of_mem (subFetchJson fetches) otherCategoryKeys c hc he
    rw [hall]
    exact ⟨e, rfl⟩
  · intro htop hforall
    unfold fetchNewsForCategory
    rw [if_pos htop]
    obtain ⟨ds, hall⟩ := promiseAll_ok_of_forall (subFetchJson fetches) otherCategoryKeys hforall
    rw [hall]
    exact ⟨_, rfl⟩

/-- Fetch outcomes where the `crime` sub-fetch is a network error. -/
def netErrorFetches : String → Except String HttpResponse :=
  fun key =>
    if key = "crime" then Except.error "fetch failed: network error"
    else Except.ok ⟨true, "OK", some ⟨"success", some [sampleArticle]⟩⟩

/-- Witness for the amended C4: a single-category non-success status is
fatal; an aggregate fetch with one sub-fetch network error rejects; an
aggregate fetch whose sub-responses all parse (one with a non-success
status) resolves. -/
theorem fetchNews_failure_modes_witness :
    fetchNewsForCategory ⟨"Politics", "politics"⟩ [] mixedStatusFetches
      = Except.error ("NewsData API request failed: " ++ "Bad Gateway")
    ∧ (∃ e, fetchNewsForCategory ⟨"Trending", "top"⟩ [] netErrorFetches = Except.error e)
    ∧ (∃ articles, fetchNewsForCategory ⟨"Trending", "top"⟩ [] mixedStatusFetches
        = Except.ok articles) := by
  refine ⟨?_, ?_, ?_⟩
  · exact (fetchNews_failure_modes ⟨"Politics", "politics"⟩ [] mixedStatusFetches).1
      (by decide) ⟨false, "Bad Gateway", some ⟨"error", none⟩⟩ (by rfl) (by rfl)
  · exact (fetchNews_failure_modes ⟨"Trending", "top"⟩ [] netErrorFetches).2.1
      (by rfl) ⟨"crime", by decide, "fetch failed: network error", by rfl⟩
  · exact (fetchNews_failure_modes ⟨"Trending", "top"⟩ [] mixedStatusFetches).2.2
      (by rfl) (by
        intro c hc
        fin_cases hc
        · exact ⟨⟨"error", none⟩, rfl⟩
        · exact ⟨⟨"success", some [sampleArticle]⟩, rfl⟩
        · exact ⟨⟨"success", some [sampleArticle]⟩, rfl⟩
        · exact ⟨⟨"success", some [sampleArticle]⟩, rfl⟩)

/-! ## Claim C5: cross-category exclusivity of chosen links -/

/-- `List.contains` on strings decides membership. -/
theorem contains_iff_mem_str (l : List String) (a : String) :
    l.contains a = true ↔ a ∈ l := by
  rw [List.contains_iff_exists_mem_beq]
  constructor
  · rintro ⟨b, hb, hab⟩
    have : a = b := by simpa using hab
    rw [this]
    exact hb
  · intro h
    exact ⟨a, h, by simp⟩

/-- A `contains = false` list does not hold the element. -/
theorem not_mem_of_contains_false (l : List String) (a : String)
    (h : l.contains a = false) : a ∉ l := by
  intro hmem
  rw [(contains_iff_mem_str l a).mpr hmem] at h
  exact Bool.noConfusion h

/-- Every candidate set the aggregator returns excludes the already-used
links: both branches of `fetchNewsForCategory` end with the
`!usedUrls.has(a.link)` filter. -/
theorem fetchNews_excludes_used : ∀ (cat : NewsCategory) (used : List String)
    (fetches : String → Except String HttpResponse) (articles : List NewsArticle),
    fetchNewsForCategory cat used fetches = Except.ok articles →
    ∀ a ∈ articles, a.link ∉ used := by
  intro cat used fetches articles hfetch a ha
  unfold fetchNewsForCategory at hfetch
  by_cases htop : cat.apiValue = "top"
  · rw [if_pos htop] at hfetch
    cases hall : promiseAll (subFetchJson fetches) otherCategoryKeys with
    | error e => rw [hall] at hfetch; exact absurd hfetch (by simp)
    | ok responses =>
      rw [hall] at hfetch
      simp only [Except.ok.injEq] at hfetch
      rw [← hfetch] at ha
      have := (List.mem_filter.mp ha).2
      exact not_mem_of_contains_false used a.link (by simpa using this)
  · rw [if_neg htop] at hfetch
    cases hresp : fetches cat.apiValue with
    | error e => rw [hresp] at hfetch; exact absurd hfetch (by simp)
    | ok response =>
      rw [hresp] at hfetch
      by_cases hok : response.ok
      · simp only [hok, Bool.not_true, Bool.false_eq_true, if_false] at hfetch
        cases hjson : response.json with
        | none => rw [hjson] at hfetch; exact absurd hfetch (by simp)
        | some data =>
          rw [hjson] at hfetch
          simp only [Except.ok.injEq] at hfetch
          rw [← hfetch] at ha
          have := (List.mem_filter.mp ha).2
          exact not_mem_of_contains_false used a.link (by simpa using this)
      · simp only [Bool.not_eq_true] at hok
        simp [hok] at hfetch

/-- A defined `articles[chosenId - 1]` is a member of the candidate list. -/
theorem jsIndex_mem (articles : List NewsArticle) (chosenId : Option Int)
    (a : NewsArticle) (h : jsIndex articles chosenId = some a) : a ∈ articles := by
  cases chosenId with
  | none => exact Option.noConfusion h
  | some k =>
    have h' : (if 1 ≤ k then articles[(k - 1).toNat]? else none) = some a := h
    by_cases hk : 1 ≤ k
    · rw [if_pos hk] at h'
      exact List.getElem?_mem h'
    · rw [if_neg hk] at h'
      exact Option.noConfusion h'

/-- Each category step either leaves the used set untouched and records no
link, or records exactly one previously-unused link and appends it. -/
theorem processCategory_step : ∀ (cat : NewsCategory) (env : CategoryEnv)
    (used : List String),
    ((processCategory cat env used).chosen = none
      ∧ (processCategory cat env used).used = used)
    ∨ (∃ l, (processCategory cat env used).chosen = some l ∧ l ∉ used
        ∧ (processCategory cat env used).used = used ++ [l]) := by
  intro cat env used
  cases hf : fetchNewsForCategory cat used env.fetches with
  | error e =>
    have heq : processCategory cat env used = ⟨used, none, CatOutcome.failed⟩ := by
      unfold processCategory
      rw [hf]
    rw [heq]
    exact Or.inl ⟨rfl, rfl⟩
  | ok articles =>
    by_cases he : articles.isEmpty
    · have heq : processCategory cat env used = ⟨used, none, CatOutcome.noArticles⟩ := by
        unfold processCategory
        rw [hf]
        simp [he]
      rw [heq]
      exact Or.inl ⟨rfl, rfl⟩
    · have hne : articles.isEmpty = false := Bool.not_eq_true _ ▸ eq_false_of_ne_true he
      cases ha : analyzeArticlesWithGemini articles env with
      | error e =>
        have heq : processCategory cat env used = ⟨used, none, CatOutcome.failed⟩ := by
          unfold processCategory
          rw [hf]
          simp only [hne, Bool.false_eq_true, if_false, ha]
        rw [heq]
        exact Or.inl ⟨rfl, rfl⟩
      | ok result =>
        cases result with
        | none =>
          have heq : processCategory cat env used = ⟨used, none, CatOutcome.irrelevant⟩ := by
            unfold processCategory
            rw [hf]
            simp only [hne, Bool.false_eq_true, if_false, ha]
          rw [heq]
          exact Or.inl ⟨rfl, rfl⟩
        | some analysisResult =>
          cases hi : jsIndex articles analysisResult.chosenId with
          | none =>
            have heq : processCategory cat env used = ⟨used, none, CatOutcome.failed⟩ := by
              unfold processCategory
              rw [hf]
              simp only [hne, Bool.false_eq_true, if_false, ha, hi]
            rw [heq]
            exact Or.inl ⟨rfl, rfl⟩
          | some chosenArticle =>
            have hnot : chosenArticle.link ∉ used :=
              fetchNews_excludes_used cat used env.fetches articles hf chosenArticle
                (jsIndex_mem articles analysisResult.chosenId chosenArticle hi)
            have hadd : jsSetAdd used chosenArticle.link = used ++ [chosenArticle.link] := by
              unfold jsSetAdd
              rw [if_neg (fun hc => hnot ((contains_iff_mem_str used chosenArticle.link).mp hc))]
            have heq : processCategory cat env used
                = ⟨jsSetAdd used chosenArticle.link, some chosenArticle.link,
                   publishStages analysisResult chosenArticle env⟩ := by
              unfold processCategory
              rw [hf]
              simp only [hne, Bool.false_eq_true, if_false, ha, hi]
            rw [heq, hadd]
            exact Or.inr ⟨chosenArticle.link, rfl, hnot, rfl⟩

/-- The loop invariant: the links recorded by a run of the category loop are
pairwise distinct and none of them was in the starting used set. -/
theorem runCategories_invariant (envs : NewsCategory → CategoryEnv) :
    ∀ (cats : List NewsCategory) (used : List String),
    ((runCategories envs cats used).2.filterMap id).Nodup
    ∧ (∀ l ∈ (runCategories envs cats used).2.filterMap id, l ∉ used) := by
  intro cats
  induction cats with
  | nil =>
    intro used
    simp [runCategories]
  | cons cat rest ih =>
    intro used
    have h2 : (runCategories envs (cat :: rest) used).2
        = (processCategory cat (envs cat) used).chosen
          :: (runCategories envs rest (processCategory cat (envs cat) used).used).2 := rfl
    rcases processCategory_step cat (envs cat) used with ⟨hnone, hused⟩ |
      ⟨l, hsome, hnotin, hused⟩
    · rw [h2, hnone, hused]
      have hmap : List.filterMap id (none :: (runCategories envs rest used).2)
          = List.filterMap id (runCategories envs rest used).2 := rfl
      rw [hmap]
      exact ⟨(ih used).1, fun x hx => (ih used).2 x hx⟩
    · rw [h2, hsome, hused]
      have hmap : List.filterMap id (some l :: (runCategories envs rest (used ++ [l])).2)
          = l :: List.filterMap id (runCategories envs rest (used ++ [l])).2 := rfl
      rw [hmap]
      constructor
      · rw [List.nodup_cons]
        refine ⟨?_, (ih (used ++ [l])).1⟩
        intro hmem
        exact (ih (used ++ [l])).2 l hmem (by simp)
      · intro x hx
        rcases List.mem_cons.mp hx with hxl | hx2
        · rw [hxl]
          exact hnotin
        · intro hc
          exact (ih (used ++ [l])).2 x hx2 (List.mem_append_left [l] hc)

/-- Claim C5: in every batch run no article link is chosen by more than one
category.  The used-URL set (initialised empty by `processNewsBatch`) never
shrinks across a category step; a successful selection appends exactly the
chosen article's link, which was not yet in the set; every candidate set the
aggregator offers to the Selection Protocol excludes all already-used links;
and consequently the links recorded over the whole batch are pairwise
distinct. -/
theorem usedLinkSet_exclusive : ∀ (envs : NewsCategory → CategoryEnv),
    ((processNewsBatch envs).2.filterMap id).Nodup
    ∧ (∀ (cat : NewsCategory) (env : CategoryEnv) (used : List String),
        used ⊆ (processCategory cat env used).used)
    ∧ (∀ (cat : NewsCategory) (env : CategoryEnv) (used : List String) (l : String),
        (processCategory cat env used).chosen = some l →
        l ∉ used ∧ (processCategory cat env used).used = used ++ [l])
    ∧ (∀ (cat : NewsCategory) (used : List String)
        (fetches : String → Except String HttpResponse) (articles : List NewsArticle),
        fetchNewsForCategory cat used fetches = Except.ok articles →
        ∀ a ∈ articles, a.link ∉ used) := by
  intro envs
  refine ⟨?_, ?_, ?_, ?_⟩
  · exact (runCategories_invariant envs NEWS_CATEGORIES []).1
  · intro cat env used
    rcases processCategory_step cat env used with ⟨_, hused⟩ | ⟨l, _, _, hused⟩
    · rw [hused]
      exact List.Subset.refl used
    · rw [hused]
      exact List.subset_append_left used [l]
  · intro cat env used l hsome
    rcases processCategory_step cat env used with ⟨hnone, _⟩ | ⟨l', hsome', hnotin, hused⟩
    · rw [hnone] at hsome
      exact Option.noConfusion hsome
    · rw [hsome'] at hsome
      have hll : l' = l := by injection hsome
      rw [← hll]
      exact ⟨hnotin, hused⟩
  · exact fetchNews_excludes_used

/-- A fully successful collaborator environment: one candidate article, a
complete model reply choosing it, a working image fetch, render, upload and
webhook. -/
def successEnv : CategoryEnv :=
  ⟨sampleFetches,
   fun _ => Except.ok ("CHOSEN_ID: 1\nHEADLINE: Dhaka Port Expansion Begins\nHIGHLIGHT_WORDS: Port Expansion\nIMAGE_PROMPT: abstract port scene\nCAPTION: caption text\nSOURCE_NAME: thedailystar"),
   Except.ok ⟨true, 200, some "image/jpeg", [255, 216, 255]⟩,
   fun _ => Except.ok [],
   Except.ok (),
   fun _ _ _ => Except.ok [137, 80, 78, 71],
   fun _ => Except.ok "https://res.cloudinary.com/img.png",
   fun _ => Except.ok ()⟩

/-- Witness for C5: with every category seeing the same one-article world,
the batch's recorded links are duplicate-free; a successful selection for
`Politics` on an empty used set appends exactly the chosen link, which was
not in the set; the used set only grows; and the candidate set excludes the
used links. -/
theorem usedLinkSet_exclusive_witness :
    ((processNewsBatch (fun _ => successEnv)).2.filterMap id).Nodup
    ∧ ("https://example.com/a1" ∉ ([] : List String)
       ∧ (processCategory ⟨"Politics", "politics"⟩ successEnv []).used
           = [] ++ ["https://example.com/a1"])
    ∧ ([] : List String) ⊆ (processCategory ⟨"Politics", "politics"⟩ successEnv []).used
    ∧ (∀ a ∈ [sampleArticle], a.link ∉ ([] : List String)) := by
  refine ⟨(usedLinkSet_exclusive (fun _ => successEnv)).1, ?_, ?_, ?_⟩
  · exact (usedLinkSet_exclusive (fun _ => successEnv)).2.2.1 ⟨"Politics", "politics"⟩
      successEnv [] "https://example.com/a1" (by rfl)
  · exact (usedLinkSet_exclusive (fun _ => successEnv)).2.1 ⟨"Politics", "politics"⟩
      successEnv []
  · exact (usedLinkSet_exclusive (fun _ => successEnv)).2.2.2 ⟨"Politics", "politics"⟩
      [] sampleFetches [sampleArticle] (by rfl)

/-! ## Claim C8: candidate ordering round-trip -/

/-- The serialized entries keep the candidate list's length. -/
theorem articleEntries_length : ∀ (l : List NewsArticle) (j : Nat),
    (articleEntries j l).length = l.length := by
  intro l
  induction l with
  | nil => intro j; rfl
  | cons a t ih =>
    intro j
    simp only [articleEntries, List.length_cons, ih]

/-- The entry at 0-based position `i` of the serialization started at `j`
is the entry for the article at position `i`, carrying ID `j + i + 1`. -/
theorem articleEntries_getElem? : ∀ (l : List NewsArticle) (j i : Nat),
    (articleEntries j l)[i]? = (l[i]?).map (fun a => articleEntry (j + i + 1) a) := by
  intro l
  induction l with
  | nil => intro j i; simp [articleEntries]
  | cons a t ih =>
    intro j i
    cases i with
    | zero => simp [articleEntries]
    | succ i =>
      simp only [articleEntries, List.getElem?_cons_succ, ih (j + 1) i]
      have : j + 1 + i + 1 = j + (i + 1) + 1 := by omega
      rw [this]

/-- Claim C8: for every candidate set, the serialized prompt list has one
entry per article, the entry at 1-based position `i` is the serialization of
the article at position `i` with ID `i` (same order as the array), and
interpreting a parsed chosen index `k` that is a valid position
(`articles[k - 1]`) recovers exactly that article. -/
theorem candidate_ordering : ∀ (articles : List NewsArticle),
    (articleEntries 0 articles).length = articles.length
    ∧ (∀ (i : Nat) (a : NewsArticle), articles[i]? = some a →
        (articleEntries 0 articles)[i]? = some (articleEntry (i + 1) a))
    ∧ (∀ (k : Nat) (a : NewsArticle), 1 ≤ k → articles[k - 1]? = some a →
        jsIndex articles (some (k : Int)) = some a) := by
  intro articles
  refine ⟨articleEntries_length articles 0, ?_, ?_⟩
  · intro i a ha
    rw [articleEntries_getElem?, ha]
    simp
  · intro k a hk ha
    have h' : jsIndex articles (some (k : Int))
        = (if 1 ≤ (k : Int) then articles[((k : Int) - 1).toNat]? else none) := rfl
    rw [h', if_pos (by exact_mod_cast hk)]
    have : ((k : Int) - 1).toNat = k - 1 := by omega
    rw [this]
    exact ha

/-- A second sample article, distinct from `sampleArticle`. -/
def sampleArticle2 : NewsArticle :=
  ⟨"a2", "Second Title", "https://example.com/a2", some "desc2", none, 90,
   some "https://example.com/a2.jpg", "prothomalo"⟩

/-- Witness for C8: on a concrete two-article candidate set, the second
prompt entry is the serialization of the second article with ID 2, and the
parsed chosen index 2 recovers exactly that article. -/
theorem candidate_ordering_witness :
    (articleEntries 0 [sampleArticle, sampleArticle2]).length = 2
    ∧ (articleEntries 0 [sampleArticle, sampleArticle2])[1]?
        = some (articleEntry 2 sampleArticle2)
    ∧ jsIndex [sampleArticle, sampleArticle2] (some ((2 : Nat) : Int)) = some sampleArticle2 := by
  refine ⟨(candidate_ordering [sampleArticle, sampleArticle2]).1, ?_, ?_⟩
  · exact (candidate_ordering [sampleArticle, sampleArticle2]).2.1 1 sampleArticle2 (by rfl)
  · exact (candidate_ordering [sampleArticle, sampleArticle2]).2.2 2 sampleArticle2
      (by decide) (by rfl)

/-! ## Claim C9: image resolver fallback ladder -/

/-- The article-image fetch failed: the promise rejected (network error) or
the response carried a non-success status. -/
def imageFetchFailed (env : CategoryEnv) : Prop :=
  (∃ e, env.imageFetch = Except.error e)
  ∨ (∃ resp, env.imageFetch = Except.ok resp ∧ resp.ok = false)

/-- Claim C9: for an article with an image reference, a successful image
fetch returns the fetched bytes as an inline payload (fetched content type,
base64 body).  On fetch failure — network error or non-success status — the
resolver falls back to the generation call with the selection's image
prompt: a generation yielding at least one image returns that image as an
inline png payload, and a generation yielding zero images returns the
"unavailable" outcome (`Except.ok none`), not an error. -/
theorem prepareMainImage_fallback : ∀ (article : NewsArticle)
    (geminiPrompt : Option String) (env : CategoryEnv),
    jsTruthy article.image_url = true →
    (∀ resp, env.imageFetch = Except.ok resp → resp.ok = true →
      prepareMainImage article geminiPrompt env
        = Except.ok (some ("data:" ++ responseMime resp ++ ";base64," ++ btoa resp.bytes)))
    ∧ (imageFetchFailed env →
        (∀ b rest, env.generated geminiPrompt = Except.ok (b :: rest) →
          prepareMainImage article geminiPrompt env
            = Except.ok (some ("data:image/png;base64," ++ b)))
        ∧ (env.generated geminiPrompt = Except.ok [] →
            prepareMainImage article geminiPrompt env = Except.ok none)) := by
  intro article geminiPrompt env htruthy
  constructor
  · intro resp hresp hok
    unfold prepareMainImage
    rw [htruthy]
    simp only [if_true, hresp, hok]
  · intro hfail
    constructor
    · intro b rest hgen
      unfold prepareMainImage
      rw [htruthy]
      simp only [if_true, hgen]
      rcases hfail with ⟨e, he⟩ | ⟨resp, hresp, hok⟩
      · rw [he]
      · rw [hresp]
        simp [hok, hgen]
    · intro hgen
      unfold prepareMainImage
      rw [htruthy]
      simp only [if_true, hgen]
      rcases hfail with ⟨e, he⟩ | ⟨resp, hresp, hok⟩
      · rw [he]
      · rw [hresp]
        simp [hok, hgen]

/-- Environment whose image fetch returns HTTP 404 and whose generation call
yields one image. -/
def notFoundThenGenerateEnv : CategoryEnv :=
  ⟨sampleFetches, fun _ => Except.error "unused",
   Except.ok ⟨false, 404, some "text/html", []⟩,
   fun _ => Except.ok ["R0lGODlh"],
   Except.ok (), fun _ _ _ => Except.error "unused",
   fun _ => Except.error "unused", fun _ => Except.error "unused"⟩

/-- Environment whose image fetch returns HTTP 404 and whose generation call
yields zero images. -/
def notFoundNoImageEnv : CategoryEnv :=
  ⟨sampleFetches, fun _ => Except.error "unused",
   Except.ok ⟨false, 404, some "text/html", []⟩,
   fun _ => Except.ok [],
   Except.ok (), fun _ _ _ => Except.error "unused",
   fun _ => Except.error "unused", fun _ => Except.error "unused"⟩

/-- Environment whose image fetch succeeds with jpeg bytes. -/
def fetchedImageEnv : CategoryEnv :=
  ⟨sampleFetches, fun _ => Except.error "unused",
   Except.ok ⟨true, 200, some "image/jpeg", [255, 216, 255, 224]⟩,
   fun _ => Except.error "unused",
   Except.ok (), fun _ _ _ => Except.error "unused",
   fun _ => Except.error "unused", fun _ => Except.error "unused"⟩

/-- Witness for C9: the spec's example scenario — a successful fetch returns
the fetched jpeg inline; a 404 fetch falls back to generation and uses the
one generated image; a 404 fetch with an empty generation result yields the
"unavailable" outcome. -/
theorem prepareMainImage_fallback_witness :
    prepareMainImage sampleArticle (some "abstract port scene") fetchedImageEnv
      = Except.ok (some ("data:" ++ "image/jpeg" ++ ";base64,"
          ++ btoa [255, 216, 255, 224]))
    ∧ prepareMainImage sampleArticle (some "abstract port scene") notFoundThenGenerateEnv
      = Except.ok (some ("data:image/png;base64," ++ "R0lGODlh"))
    ∧ prepareMainImage sampleArticle (some "abstract port scene") notFoundNoImageEnv
      = Except.ok none := by
  refine ⟨?_, ?_, ?_⟩
  · exact (prepareMainImage_fallback sampleArticle (some "abstract port scene")
      fetchedImageEnv (by rfl)).1 ⟨true, 200, some "image/jpeg", [255, 216, 255, 224]⟩
      (by rfl) (by rfl)
  · exact ((prepareMainImage_fallback sampleArticle (some "abstract port scene")
      notFoundThenGenerateEnv (by rfl)).2
      (Or.inr ⟨⟨false, 404, some "text/html", []⟩, rfl, rfl⟩)).1 "R0lGODlh" [] (by rfl)
  · exact ((prepareMainImage_fallback sampleArticle (some "abstract port scene")
      notFoundNoImageEnv (by rfl)).2
      (Or.inr ⟨⟨false, 404, some "text/html", []⟩, rfl, rfl⟩)).2 (by rfl)
